import Mathlib

/- Formal model of the numeric pipeline of this repository
   (scripts/data_processor.py, class MiningDataProcessor).

   Modelling conventions, used throughout:
   - Python float arithmetic is embedded as exact rational arithmetic (ℚ);
     the float literals 2.7, 0.2 etc. become the rationals 27/10, 1/5.
   - A pandas cell that may be missing (NaN) is an Option ℚ; pandas
     `mean()` of an empty selection, which yields NaN, is `none`.
   - A DataFrame is a List of row structures holding the columns the
     modelled function reads or writes.
   - External library calls (numpy RNG draws, sklearn estimators, scipy
     Delaunay interpolation, transcendental functions) are modelled as
     explicit oracle parameters constrained only by their documented
     contracts; everything the repository's own code does with their
     results is embedded exactly. -/

/-! ## Reserve calculator: calculate_ore_reserves (data_processor.py lines 174-189) -/

/-- One row of the table as read by `calculate_ore_reserves`: the
columns `Moyenne U (ppm)` and `Volume_approx`. -/
structure OreRow where
  moyenneU : ℚ
  volumeApprox : ℚ
deriving DecidableEq, Repr

/-- One row of the `ore_data` frame produced by `calculate_ore_reserves`:
the original row plus the added `Tonnage` and `Metal_content` columns. -/
structure OreDataRow where
  row : OreRow
  tonnage : ℚ
  metalContent : ℚ
deriving DecidableEq, Repr

/-- The `reserves` dict returned by `calculate_ore_reserves`.
`averageGrade` is `none` when the ore subset is empty (pandas `mean()`
of an empty column is NaN). -/
structure ReserveSummary where
  totalTonnage : ℚ
  averageGrade : Option ℚ
  metalContent : ℚ
  oreBlocks : Nat
deriving DecidableEq, Repr

/-- Embedding of `MiningDataProcessor.calculate_ore_reserves`:
keeps the rows with `Moyenne U (ppm) >= cutoff_grade`, adds
`Tonnage = Volume_approx * 2.7` and
`Metal_content = Tonnage * Moyenne U (ppm) / 1e6`, and aggregates
sum, mean, sum, count. -/
def calculate_ore_reserves (df : List OreRow) (cutoffGrade : ℚ) :
    ReserveSummary × List OreDataRow :=
  let oreData := df.filter (fun r => cutoffGrade ≤ r.moyenneU)
  let oreRows := oreData.map (fun r =>
    let t := r.volumeApprox * (27 / 10)
    { row := r, tonnage := t, metalContent := t * r.moyenneU / 1000000 })
  ({ totalTonnage := (oreRows.map (fun t => t.tonnage)).sum,
     averageGrade :=
       if oreData.length = 0 then none
       else some ((oreData.map (fun r => r.moyenneU)).sum / oreData.length),
     metalContent := (oreRows.map (fun t => t.metalContent)).sum,
     oreBlocks := oreData.length },
   oreRows)

/-- Total tonnage of `calculate_ore_reserves` written as one sum, for
induction. -/
def tonnageSum (df : List OreRow) (c : ℚ) : ℚ :=
  ((df.filter (fun r => c ≤ r.moyenneU)).map
    (fun r => r.volumeApprox * (27 / 10))).sum

theorem calculate_ore_reserves_totalTonnage (df : List OreRow) (c : ℚ) :
    (calculate_ore_reserves df c).1.totalTonnage = tonnageSum df c := by
  simp only [calculate_ore_reserves, tonnageSum, List.map_map]
  rfl

theorem tonnageSum_nonneg (df : List OreRow) (c : ℚ)
    (hv : ∀ r ∈ df, 0 ≤ r.volumeApprox) : 0 ≤ tonnageSum df c := by
  induction df with
  | nil => simp [tonnageSum]
  | cons r tl ih =>
    have hr : 0 ≤ r.volumeApprox := hv r (List.mem_cons_self r tl)
    have htl : 0 ≤ tonnageSum tl c := ih (fun s hs => hv s (List.mem_cons_of_mem r hs))
    by_cases h : c ≤ r.moyenneU
    · have : tonnageSum (r :: tl) c = r.volumeApprox * (27 / 10) + tonnageSum tl c := by
        simp [tonnageSum, List.filter_cons, h]
      rw [this]
      have : 0 ≤ r.volumeApprox * (27 / 10) := by positivity
      linarith
    · have : tonnageSum (r :: tl) c = tonnageSum tl c := by
        simp [tonnageSum, List.filter_cons, h]
      rw [this]; exact htl

theorem tonnageSum_anti (df : List OreRow) (c₁ c₂ : ℚ)
    (hv : ∀ r ∈ df, 0 ≤ r.volumeApprox) (hc : c₁ ≤ c₂) :
    tonnageSum df c₂ ≤ tonnageSum df c₁ := by
  induction df with
  | nil => simp [tonnageSum]
  | cons r tl ih =>
    have hr : 0 ≤ r.volumeApprox := hv r (List.mem_cons_self r tl)
    have htl := ih (fun s hs => hv s (List.mem_cons_of_mem r hs))
    by_cases h2 : c₂ ≤ r.moyenneU
    · have h1 : c₁ ≤ r.moyenneU := le_trans hc h2
      have e2 : tonnageSum (r :: tl) c₂ = r.volumeApprox * (27 / 10) + tonnageSum tl c₂ := by
        simp [tonnageSum, List.filter_cons, h2]
      have e1 : tonnageSum (r :: tl) c₁ = r.volumeApprox * (27 / 10) + tonnageSum tl c₁ := by
        simp [tonnageSum, List.filter_cons, h1]
      rw [e1, e2]; linarith
    · have e2 : tonnageSum (r :: tl) c₂ = tonnageSum tl c₂ := by
        simp [tonnageSum, List.filter_cons, h2]
      rw [e2]
      by_cases h1 : c₁ ≤ r.moyenneU
      · have e1 : tonnageSum (r :: tl) c₁ = r.volumeApprox * (27 / 10) + tonnageSum tl c₁ := by
          simp [tonnageSum, List.filter_cons, h1]
        rw [e1]
        have : 0 ≤ r.volumeApprox * (27 / 10) := by positivity
        linarith
      · have e1 : tonnageSum (r :: tl) c₁ = tonnageSum tl c₁ := by
          simp [tonnageSum, List.filter_cons, h1]
        rw [e1]; exact htl

/-- C1: for every table and cutoff, the ore subset returned by
`calculate_ore_reserves` is exactly the rows with mean grade ≥ cutoff,
each ore row carries `Tonnage = Volume_approx * 2.7` and
`Metal_content = Tonnage * grade / 1e6`, and on a 3-row table with mean
grades 10, 40, 60 and cutoff 30 the ore subset is exactly the rows with
grades 40 and 60 and the ore-block count is 2. -/
theorem C1_reserves_filter_and_formulas (df : List OreRow) (c : ℚ) :
    (calculate_ore_reserves df c).2.map (fun t => t.row)
        = df.filter (fun r => c ≤ r.moyenneU)
      ∧ (∀ t ∈ (calculate_ore_reserves df c).2,
          t.tonnage = t.row.volumeApprox * (27 / 10)
            ∧ t.metalContent = t.tonnage * t.row.moyenneU / 1000000)
      ∧ (∀ v₁ v₂ v₃ : ℚ,
          (calculate_ore_reserves [⟨10, v₁⟩, ⟨40, v₂⟩, ⟨60, v₃⟩] 30).2.map (fun t => t.row)
              = [⟨40, v₂⟩, ⟨60, v₃⟩]
            ∧ (calculate_ore_reserves [⟨10, v₁⟩, ⟨40, v₂⟩, ⟨60, v₃⟩] 30).1.oreBlocks = 2) := by
  refine ⟨?_, ?_, ?_⟩
  · simp only [calculate_ore_reserves, List.map_map]
    exact List.map_id _
  · intro t ht
    simp only [calculate_ore_reserves, List.mem_map] at ht
    obtain ⟨r, _, rfl⟩ := ht
    exact ⟨rfl, rfl⟩
  · intro v₁ v₂ v₃
    constructor
    · simp [calculate_ore_reserves, List.filter_cons]
      norm_num
    · simp [calculate_ore_reserves, List.filter_cons]
      norm_num

/-- Witness for C1 at a concrete table and cutoff. -/
theorem C1_reserves_filter_and_formulas_witness :
    (calculate_ore_reserves [⟨10, 1⟩, ⟨40, 2⟩, ⟨60, 3⟩] 30).2.map (fun t => t.row)
        = [⟨40, 2⟩, ⟨60, 3⟩] ∧
    (calculate_ore_reserves [⟨10, 1⟩, ⟨40, 2⟩, ⟨60, 3⟩] 30).1.oreBlocks = 2 :=
  (C1_reserves_filter_and_formulas [⟨10, 1⟩, ⟨40, 2⟩, ⟨60, 3⟩] 30).2.2 1 2 3

/-- C2: for a fixed table with non-negative volume proxies, the total
tonnage reported by `calculate_ore_reserves` is non-increasing in the
cutoff grade. -/
theorem C2_total_tonnage_antitone (df : List OreRow) (c₁ c₂ : ℚ)
    (hv : ∀ r ∈ df, 0 ≤ r.volumeApprox) (hc : c₁ ≤ c₂) :
    (calculate_ore_reserves df c₂).1.totalTonnage
      ≤ (calculate_ore_reserves df c₁).1.totalTonnage := by
  rw [calculate_ore_reserves_totalTonnage, calculate_ore_reserves_totalTonnage]
  exact tonnageSum_anti df c₁ c₂ hv hc

/-- Witness for C2 at a concrete table and cutoff pair. -/
theorem C2_total_tonnage_antitone_witness :
    (calculate_ore_reserves [⟨10, 1⟩, ⟨40, 2⟩, ⟨60, 3⟩] 50).1.totalTonnage
      ≤ (calculate_ore_reserves [⟨10, 1⟩, ⟨40, 2⟩, ⟨60, 3⟩] 20).1.totalTonnage :=
  C2_total_tonnage_antitone [⟨10, 1⟩, ⟨40, 2⟩, ⟨60, 3⟩] 20 50
    (by intro r hr; fin_cases hr <;> norm_num) (by norm_num)

/-- C3: when every row's mean grade is strictly below the cutoff,
`calculate_ore_reserves` returns total tonnage 0, ore-block count 0,
metal content 0, and an undefined (none) average grade: the function is
total, so no exception is raised. -/
theorem C3_empty_ore_subset (df : List OreRow) (c : ℚ)
    (h : ∀ r ∈ df, r.moyenneU < c) :
    (calculate_ore_reserves df c).1.totalTonnage = 0
      ∧ (calculate_ore_reserves df c).1.oreBlocks = 0
      ∧ (calculate_ore_reserves df c).1.averageGrade = none
      ∧ (calculate_ore_reserves df c).1.metalContent = 0 := by
  have hnil : df.filter (fun r => c ≤ r.moyenneU) = [] := by
    rw [List.filter_eq_nil_iff]
    intro r hr
    simpa using not_le.mpr (h r hr)
  refine ⟨?_, ?_, ?_, ?_⟩ <;> simp [calculate_ore_reserves, hnil]

/-- Witness for C3 at a concrete table whose grades all sit below the
cutoff. -/
theorem C3_empty_ore_subset_witness :
    (calculate_ore_reserves [⟨10, 1⟩, ⟨20, 2⟩] 30).1.totalTonnage = 0
      ∧ (calculate_ore_reserves [⟨10, 1⟩, ⟨20, 2⟩] 30).1.oreBlocks = 0
      ∧ (calculate_ore_reserves [⟨10, 1⟩, ⟨20, 2⟩] 30).1.averageGrade = none
      ∧ (calculate_ore_reserves [⟨10, 1⟩, ⟨20, 2⟩] 30).1.metalContent = 0 :=
  C3_empty_ore_subset [⟨10, 1⟩, ⟨20, 2⟩] 30
    (by intro r hr; fin_cases hr <;> norm_num)

/-! ## Sample data generator: create_sample_data (data_processor.py lines 70-109) -/

/-- Oracle model of the numpy random draws consumed by
`create_sample_data` after `np.random.seed(42)`. Each `np.random.*`
array call of the source is one stream, indexed by the row number; the
Mersenne Twister state evolution itself is not modelled, so results
proved for every stream satisfying the documented contracts in
particular cover the seed-42 stream. `sinQ`/`cosQ` are oracles for the
float routines `np.sin`/`np.cos`. -/
structure NumpyStreams where
  ux : Nat → ℚ
  uy : Nat → ℚ
  uDepthStart : Nat → ℚ
  uDepthLen : Nat → ℚ
  uFinE : Nat → ℚ
  uFinN : Nat → ℚ
  uDir : Nat → ℚ
  uLen : Nat → ℚ
  uTh : Nat → ℚ
  uMaxU : Nat → ℚ
  gNoise : Nat → ℚ
  tranche : Nat → Nat
  lith : Nat → String
  sinQ : ℚ → ℚ
  cosQ : ℚ → ℚ

/-- Contract of `np.random.uniform(0, 1)` draws: every value lies in
the half-open unit interval. -/
def Unit01 (u : Nat → ℚ) : Prop := ∀ i, 0 ≤ u i ∧ u i < 1

/-- Contract satisfied by the streams drawn by the seeded numpy RNG:
all `np.random.uniform` draws, rescaled back to `[0, 1)`. -/
def ValidStreams (s : NumpyStreams) : Prop :=
  Unit01 s.ux ∧ Unit01 s.uy ∧ Unit01 s.uDepthStart ∧ Unit01 s.uDepthLen
    ∧ Unit01 s.uFinE ∧ Unit01 s.uFinN ∧ Unit01 s.uDir ∧ Unit01 s.uLen
    ∧ Unit01 s.uTh ∧ Unit01 s.uMaxU

/-- `np.random.uniform(low, high)` applied to one unit draw. -/
def npUniform (low high u : ℚ) : ℚ := low + (high - low) * u

/-- One row of the DataFrame built by `create_sample_data`. -/
structure SampleRow where
  numAnomalie : Nat
  numTranche : Nat
  debutE : ℚ
  debutN : ℚ
  finE : ℚ
  finN : ℚ
  direction : ℚ
  longueur : ℚ
  deM : ℚ
  aM : ℚ
  epaisseur : ℚ
  moyenneU : ℚ
  maxU : ℚ
  lithologie : String
deriving DecidableEq, Repr

/-- Embedding of `MiningDataProcessor.create_sample_data`: builds `n`
rows whose columns follow the source's formulas, the random draws taken
from the oracle streams. `uranium_mean = max(0, base + noise)` with
`base = 50 + 30 * sin(x/1000) * cos(y/1000)`, and
`uranium_max = uranium_mean + uniform(0, 50)`. -/
def create_sample_data (n : Nat) (s : NumpyStreams) : List SampleRow :=
  (List.range n).map (fun i =>
    let x := npUniform 500000 502000 (s.ux i)
    let y := npUniform 4500000 4502000 (s.uy i)
    let ds := npUniform 0 100 (s.uDepthStart i)
    let de := ds + npUniform 5 50 (s.uDepthLen i)
    let uraniumBase := 50 + 30 * s.sinQ (x / 1000) * s.cosQ (y / 1000)
    let uraniumMean := max 0 (uraniumBase + s.gNoise i)
    let uraniumMax := uraniumMean + npUniform 0 50 (s.uMaxU i)
    { numAnomalie := i + 1,
      numTranche := s.tranche i,
      debutE := x,
      debutN := y,
      finE := x + npUniform (-50) 50 (s.uFinE i),
      finN := y + npUniform (-50) 50 (s.uFinN i),
      direction := npUniform 0 360 (s.uDir i),
      longueur := npUniform 10 200 (s.uLen i),
      deM := ds,
      aM := de,
      epaisseur := npUniform (1 / 2) 15 (s.uTh i),
      moyenneU := uraniumMean,
      maxU := uraniumMax,
      lithologie := s.lith i })

/-- C8: for every row of `create_sample_data n` under any valid draw
streams — hence in particular for the fixed seed 42 and n = 200 — the
start easting lies in [500000, 502000], the start northing lies in
[4500000, 4502000], and the mean uranium grade is non-negative. -/
theorem C8_sample_data_ranges (n : Nat) (s : NumpyStreams)
    (hs : ValidStreams s) :
    ∀ r ∈ create_sample_data n s,
      500000 ≤ r.debutE ∧ r.debutE ≤ 502000
        ∧ 4500000 ≤ r.debutN ∧ r.debutN ≤ 4502000
        ∧ 0 ≤ r.moyenneU := by
  intro r hr
  simp only [create_sample_data, List.mem_map, List.mem_range] at hr
  obtain ⟨i, _, rfl⟩ := hr
  obtain ⟨hux, huy, -⟩ := hs
  obtain ⟨hx0, hx1⟩ := hux i
  obtain ⟨hy0, hy1⟩ := huy i
  refine ⟨?_, ?_, ?_, ?_, ?_⟩
  · simp only [npUniform]; nlinarith
  · simp only [npUniform]; nlinarith
  · simp only [npUniform]; nlinarith
  · simp only [npUniform]; nlinarith
  · exact le_max_left 0 _

/-- Constant draw streams satisfying the RNG contracts, for the
sample-data witnesses. -/
def demoStreams : NumpyStreams :=
  { ux := fun _ => 1 / 2, uy := fun _ => 1 / 2,
    uDepthStart := fun _ => 1 / 2, uDepthLen := fun _ => 1 / 2,
    uFinE := fun _ => 1 / 2, uFinN := fun _ => 1 / 2,
    uDir := fun _ => 1 / 2, uLen := fun _ => 1 / 2,
    uTh := fun _ => 1 / 2, uMaxU := fun _ => 1 / 2,
    gNoise := fun _ => 0, tranche := fun _ => 1,
    lith := fun _ => "Granite", sinQ := fun _ => 0, cosQ := fun _ => 1 }

theorem demoStreams_valid : ValidStreams demoStreams := by
  refine ⟨?_, ?_, ?_, ?_, ?_, ?_, ?_, ?_, ?_, ?_⟩ <;>
    exact fun i => by norm_num [demoStreams]

/-- The first row generated with n = 200 and the demo streams. -/
def sampleRow0 : SampleRow :=
  (create_sample_data 200 demoStreams).get
    ⟨0, by simp [create_sample_data]⟩

theorem sampleRow0_mem :
    sampleRow0 ∈ create_sample_data 200 demoStreams :=
  List.get_mem _ _ _

/-- Witness for C8: constant valid streams, n = 200, first row. -/
theorem C8_sample_data_ranges_witness :
    500000 ≤ sampleRow0.debutE ∧ sampleRow0.debutE ≤ 502000
      ∧ 4500000 ≤ sampleRow0.debutN ∧ sampleRow0.debutN ≤ 4502000
      ∧ 0 ≤ sampleRow0.moyenneU :=
  C8_sample_data_ranges 200 demoStreams demoStreams_valid
    sampleRow0 sampleRow0_mem

/-- C10: every row produced by `create_sample_data`, for every n and
every valid draw streams, satisfies the upstream AnomalyRecord
invariants: the depth end is strictly greater than the depth start, and
the max grade is at least the mean grade. -/
theorem C10_sample_data_invariants (n : Nat) (s : NumpyStreams)
    (hs : ValidStreams s) :
    ∀ r ∈ create_sample_data n s, r.deM < r.aM ∧ r.moyenneU ≤ r.maxU := by
  intro r hr
  simp only [create_sample_data, List.mem_map, List.mem_range] at hr
  obtain ⟨i, _, rfl⟩ := hr
  obtain ⟨-, -, -, hdl, -, -, -, -, -, hmx⟩ := hs
  obtain ⟨hd0, hd1⟩ := hdl i
  obtain ⟨hm0, hm1⟩ := hmx i
  constructor
  · simp only [npUniform]; nlinarith
  · simp only [npUniform]; nlinarith

/-- Witness for C10: constant valid streams, n = 200, first row. -/
theorem C10_sample_data_invariants_witness :
    sampleRow0.deM < sampleRow0.aM
      ∧ sampleRow0.moyenneU ≤ sampleRow0.maxU :=
  C10_sample_data_invariants 200 demoStreams demoStreams_valid
    sampleRow0 sampleRow0_mem

/-! ## Grade predictor: train_uranium_model (data_processor.py lines 121-140) -/

/-- One row of the table as read by `train_uranium_model`: the seven
feature columns and the target column `Moyenne U (ppm)`. -/
structure TrainRow where
  xMean : ℚ
  yMean : ℚ
  zMean : ℚ
  epaisseur : ℚ
  longueur : ℚ
  lithologieEncoded : Nat
  direction : ℚ
  moyenneU : ℚ
deriving DecidableEq, Repr

/-- Errors that can escape the modelled pipeline stages. The source
defines no error class of its own (its only raise is the generic
ValueError of the preprocessor); in particular no InsufficientDataError
exists anywhere in the repository. -/
inductive PyError where
  /-- Generic ValueError raised inside an external sklearn/scipy call. -/
  | valueError : PyError
deriving DecidableEq, Repr

/-- Number of test rows chosen by `train_test_split(test_size=0.2)`:
the ceiling of n / 5, as sklearn computes it. -/
def testCount (n : Nat) : Nat := (n + 4) / 5

/-- Row counts produced by `train_test_split(X, y, test_size=0.2,
random_state=42)` on n rows: sklearn raises a ValueError when the
resulting train or test side would be empty, otherwise splits the rows
deterministically. -/
def train_test_split_counts (n : Nat) : Except PyError (Nat × Nat) :=
  if testCount n = 0 ∨ n - testCount n = 0 then Except.error PyError.valueError
  else Except.ok (n - testCount n, testCount n)

/-- Result of `train_uranium_model`. The fitted 100-tree
RandomForestRegressor and the float metrics mse / r2 are external
sklearn computations that this model does not evaluate; what the
claims need is which inputs make training complete rather than raise,
together with the split sizes and the fixed feature list it uses. -/
structure TrainResult where
  nTrain : Nat
  nTest : Nat
  features : List String
deriving DecidableEq, Repr

/-- Embedding of the control flow of
`MiningDataProcessor.train_uranium_model`: selects the fixed 7-feature
matrix, splits 80/20 with a fixed seed, fits the forest on the train
side and scores on the test side. The source performs no row-count
check of its own and raises no error of its own: the only failure path
is the ValueError of `train_test_split` when one side of the split
would be empty. -/
def train_uranium_model (df : List TrainRow) :
    Except PyError TrainResult :=
  match train_test_split_counts df.length with
  | Except.error e => Except.error e
  | Except.ok (nTrain, nTest) =>
      Except.ok
        { nTrain := nTrain, nTest := nTest,
          features := ["X_mean", "Y_mean", "Z_mean", "Epaisseur (m)",
                       "Longueur (m)", "Lithologie_encoded", "Direction"] }

/-- A concrete 5-row table: after the 80/20 split only 4 train rows
remain, fewer than the ~5 usable rows the claim says should trigger an
InsufficientDataError. -/
def fiveRows : List TrainRow :=
  [⟨501000, 4501000, 10, 2, 50, 0, 90, 40⟩,
   ⟨501100, 4501100, 20, 3, 60, 1, 100, 50⟩,
   ⟨501200, 4501200, 30, 4, 70, 0, 110, 60⟩,
   ⟨501300, 4501300, 40, 5, 80, 1, 120, 70⟩,
   ⟨501400, 4501400, 50, 6, 90, 0, 130, 80⟩]

/-- Counterexample to C4: on a 5-row table (4 usable train rows after
the 80/20 split) `train_uranium_model` does not fail with any error —
there is no InsufficientDataError in the code — but returns a fitted
model result with 4 train rows and 1 test row. -/
theorem C4_counterexample_five_rows_fit :
    train_uranium_model fiveRows
      = Except.ok
          { nTrain := 4, nTest := 1,
            features := ["X_mean", "Y_mean", "Z_mean", "Epaisseur (m)",
                         "Longueur (m)", "Lithologie_encoded", "Direction"] } := by
  rfl

/-- C4 amended: `train_uranium_model` performs no minimum-row check and
never raises an InsufficientDataError. For every table with at least 2
rows the 80/20 split leaves both sides non-empty and training returns a
fitted-model result (possibly a degenerate fit); with 0 or 1 rows the
only failure is the generic ValueError of `train_test_split`. -/
theorem C4_no_insufficient_data_check (df : List TrainRow) :
    (2 ≤ df.length → (train_uranium_model df).isOk = true)
      ∧ (df.length < 2 →
          train_uranium_model df = Except.error PyError.valueError) := by
  constructor
  · intro h2
    have ht1 : 1 ≤ testCount df.length := by
      unfold testCount; omega
    have ht2 : testCount df.length < df.length := by
      unfold testCount; omega
    unfold train_uranium_model train_test_split_counts
    have : ¬(testCount df.length = 0 ∨ df.length - testCount df.length = 0) := by
      omega
    simp [this, Except.isOk, Except.toBool]
  · intro h2
    interval_cases h : df.length <;>
      simp [train_uranium_model, train_test_split_counts, h, testCount]

/-- Witness for the amended C4 at the concrete 5-row table and at the
empty table. -/
theorem C4_no_insufficient_data_check_witness :
    (train_uranium_model fiveRows).isOk = true
      ∧ train_uranium_model ([] : List TrainRow)
          = Except.error PyError.valueError :=
  ⟨(C4_no_insufficient_data_check fiveRows).1 (by decide),
   (C4_no_insufficient_data_check []).2 (by decide)⟩

/-! ## Grid interpolator: interpolate_3d_grid (data_processor.py lines 142-172) -/

/-- A 3D point with rational coordinates. -/
structure Point3 where
  x : ℚ
  y : ℚ
  z : ℚ
deriving DecidableEq, Repr

/-- One row of the table as read by `interpolate_3d_grid`: the midpoint
columns and the grade column. -/
structure GridRow where
  xMean : ℚ
  yMean : ℚ
  zMean : ℚ
  moyenneU : ℚ
deriving DecidableEq, Repr

/-- Componentwise difference of points. -/
def psub (a b : Point3) : Point3 := ⟨a.x - b.x, a.y - b.y, a.z - b.z⟩

/-- Determinant of three difference vectors. -/
def det3 (u v w : Point3) : ℚ :=
  u.x * (v.y * w.z - v.z * w.y) - u.y * (v.x * w.z - v.z * w.x)
    + u.z * (v.x * w.y - v.y * w.x)

/-- Whether a point list affinely spans all of 3-space: some four
points form a non-degenerate simplex. scipy's Delaunay triangulation
(hence `griddata` with `method='linear'`) requires this and raises a
QhullError otherwise. -/
def fullDim3 (pts : List Point3) : Bool :=
  pts.any (fun a => pts.any (fun b => pts.any (fun c => pts.any (fun d =>
    decide (det3 (psub b a) (psub c a) (psub d a) ≠ 0)))))

/-- `np.linspace(a, b, num)` with the default inclusive endpoint. -/
def linspace (a b : ℚ) (num : Nat) : List ℚ :=
  if num = 0 then []
  else if num = 1 then [a]
  else (List.range num).map (fun (i : Nat) => a + (b - a) * (i : ℚ) / ((num : ℚ) - 1))

/-- pandas Series.min over a column, 0 on the empty column (whose real
pandas value, NaN, is never consumed in the modelled paths). -/
def colMinQ (l : List ℚ) : ℚ :=
  match l with
  | [] => 0
  | a :: tl => tl.foldl min a

/-- pandas Series.max over a column, 0 on the empty column. -/
def colMaxQ (l : List ℚ) : ℚ :=
  match l with
  | [] => 0
  | a :: tl => tl.foldl max a

/-- Oracle model of `scipy.interpolate.griddata(method='linear')` on a
non-degenerate point set: `insideHull` decides membership of a query
point in the convex hull of the sample points, and `interpolant` is the
barycentric linear interpolation used on inside points. Neither is
re-implemented; the repository code is embedded relative to any such
pair. -/
structure GriddataLinear where
  interpolant : List Point3 → List ℚ → Point3 → ℚ
  insideHull : List Point3 → Point3 → Bool

/-- Value of `griddata(points, values, q, method='linear',
fill_value=fill)` at a single query point: the fill value outside the
convex hull of the sample points, the linear interpolant inside. -/
def griddataApply (G : GriddataLinear) (points : List Point3) (vals : List ℚ)
    (fill : ℚ) (q : Point3) : ℚ :=
  if G.insideHull points q then G.interpolant points vals q else fill

/-- The QhullError escaping `scipy.spatial.Delaunay` when the sample
points collapse onto a lower-dimensional subspace. -/
inductive QhullError where
  | degenerateInput : QhullError
deriving DecidableEq, Repr

/-- One slice dict appended by `interpolate_3d_grid`: the meshgrid
arrays `x`, `y`, `z`, the interpolated `values`, and `z_level`. -/
structure GridSlice where
  xMesh : List (List ℚ)
  yMesh : List (List ℚ)
  zMesh : List (List ℚ)
  values : List (List ℚ)
  zLevel : ℚ
deriving DecidableEq, Repr

/-- Embedding of `MiningDataProcessor.interpolate_3d_grid`: builds
linspace grids of `grid_resolution` X and Y points and
`grid_resolution // 2` Z levels over the data bounding box, and for
each Z level evaluates `griddata` on the meshgrid lattice with fill
value 0. The source wraps no call in try/except, so the QhullError
raised by the first `griddata` call on an affinely degenerate sample
set (and the error on an empty table) propagates out; the guard here
sits before the loop because every iteration would raise it. -/
def interpolate_3d_grid (G : GriddataLinear) (df : List GridRow)
    (gridResolution : Nat) : Except QhullError (List GridSlice) :=
  let points := df.map (fun r => Point3.mk r.xMean r.yMean r.zMean)
  let vals := df.map (fun r => r.moyenneU)
  if fullDim3 points then
    let xGrid := linspace (colMinQ (df.map (fun r => r.xMean)))
      (colMaxQ (df.map (fun r => r.xMean))) gridResolution
    let yGrid := linspace (colMinQ (df.map (fun r => r.yMean)))
      (colMaxQ (df.map (fun r => r.yMean))) gridResolution
    let zGrid := linspace (colMinQ (df.map (fun r => r.zMean)))
      (colMaxQ (df.map (fun r => r.zMean))) (gridResolution / 2)
    Except.ok (zGrid.map (fun z =>
      { xMesh := yGrid.map (fun _ => xGrid),
        yMesh := yGrid.map (fun yv => xGrid.map (fun _ => yv)),
        zMesh := yGrid.map (fun _ => xGrid.map (fun _ => z)),
        values := yGrid.map (fun yv => xGrid.map (fun xv =>
          griddataApply G points vals 0 ⟨xv, yv, z⟩)),
        zLevel := z }))
  else Except.error QhullError.degenerateInput

theorem linspace_length (a b : ℚ) (n : Nat) : (linspace a b n).length = n := by
  unfold linspace
  split
  · simp [*]
  · split
    · simp [*]
    · rw [List.length_map, List.length_range]

theorem linspace_getD (a b : ℚ) (n i : Nat) (h2 : 2 ≤ n) (hi : i < n) :
    (linspace a b n).getD i 0 = a + (b - a) * i / ((n : ℚ) - 1) := by
  have hn0 : n ≠ 0 := by omega
  have hn1 : n ≠ 1 := by omega
  rw [linspace, if_neg hn0, if_neg hn1, List.getD_eq_getElem?_getD,
    List.getElem?_map, List.getElem?_range hi]
  rfl

theorem linspace_first (a b : ℚ) (n : Nat) (h2 : 2 ≤ n) :
    (linspace a b n).getD 0 0 = a := by
  rw [linspace_getD a b n 0 h2 (by omega)]
  norm_num

theorem linspace_last (a b : ℚ) (n : Nat) (h2 : 2 ≤ n) :
    (linspace a b n).getD (n - 1) 0 = b := by
  rw [linspace_getD a b n (n - 1) h2 (by omega)]
  have hc : ((n - 1 : Nat) : ℚ) = (n : ℚ) - 1 := by
    push_cast [Nat.cast_sub (by omega : 1 ≤ n)]
    ring
  have hne : (n : ℚ) - 1 ≠ 0 := by
    have : (2 : ℚ) ≤ (n : ℚ) := by exact_mod_cast h2
    linarith
  rw [hc, mul_div_assoc, div_self hne]
  ring

theorem linspace_step (a b : ℚ) (n i : Nat) (h2 : 2 ≤ n) (hi : i + 1 < n) :
    (linspace a b n).getD (i + 1) 0 - (linspace a b n).getD i 0
      = (b - a) / ((n : ℚ) - 1) := by
  rw [linspace_getD a b n (i + 1) h2 hi, linspace_getD a b n i h2 (by omega)]
  push_cast
  ring

/-- The scattered sample points `df[['X_mean', 'Y_mean', 'Z_mean']]`. -/
def gridPoints (df : List GridRow) : List Point3 :=
  df.map (fun r => Point3.mk r.xMean r.yMean r.zMean)

/-- The X grid `np.linspace(x_min, x_max, grid_resolution)`. -/
def xAxisGrid (df : List GridRow) (res : Nat) : List ℚ :=
  linspace (colMinQ (df.map (fun r => r.xMean)))
    (colMaxQ (df.map (fun r => r.xMean))) res

/-- The Y grid `np.linspace(y_min, y_max, grid_resolution)`. -/
def yAxisGrid (df : List GridRow) (res : Nat) : List ℚ :=
  linspace (colMinQ (df.map (fun r => r.yMean)))
    (colMaxQ (df.map (fun r => r.yMean))) res

/-- The Z grid `np.linspace(z_min, z_max, grid_resolution // 2)`. -/
def zAxisGrid (df : List GridRow) (res : Nat) : List ℚ :=
  linspace (colMinQ (df.map (fun r => r.zMean)))
    (colMaxQ (df.map (fun r => r.zMean))) (res / 2)

/-- The slice list `interpolate_3d_grid` returns on success, with the
`griddata` hull test written out: a lattice point outside the convex
hull of the sample points gets the fill value 0, never the
interpolant. -/
def interpSlices (G : GriddataLinear) (df : List GridRow) (res : Nat) :
    List GridSlice :=
  (zAxisGrid df res).map (fun z =>
    { xMesh := (yAxisGrid df res).map (fun _ => xAxisGrid df res),
      yMesh := (yAxisGrid df res).map (fun yv =>
        (xAxisGrid df res).map (fun _ => yv)),
      zMesh := (yAxisGrid df res).map (fun _ =>
        (xAxisGrid df res).map (fun _ => z)),
      values := (yAxisGrid df res).map (fun yv =>
        (xAxisGrid df res).map (fun xv =>
          if G.insideHull (gridPoints df) ⟨xv, yv, z⟩ then
            G.interpolant (gridPoints df) (df.map (fun r => r.moyenneU))
              ⟨xv, yv, z⟩
          else 0)),
      zLevel := z })

theorem getD_lt {α : Type _} (l : List α) (d : α) (i : Nat) (h : i < l.length) :
    l.getD i d = l[i] := by
  rw [List.getD_eq_getElem?_getD, List.getElem?_eq_getElem h]
  rfl

/-- C7: on a non-degenerate table, `interpolate_3d_grid` succeeds and
returns exactly `resolution / 2` slices, ordered by the Z grid
spanning the depth bounding box; the X and Y grids have exactly
`resolution` linearly spaced points spanning the X/Y bounding box;
every slice retains its Z level and its 2D coordinate meshes; and
every lattice point outside the convex hull of the sample points
receives the fill value 0, never an extrapolated value. -/
theorem C7_interpolation_grid_structure (G : GriddataLinear)
    (df : List GridRow) (res : Nat) (hres : 4 ≤ res)
    (hdim : fullDim3 (gridPoints df) = true) :
    interpolate_3d_grid G df res = Except.ok (interpSlices G df res)
      ∧ (interpSlices G df res).length = res / 2
      ∧ (interpSlices G df res).map (fun s => s.zLevel) = zAxisGrid df res
      ∧ (∀ s ∈ interpSlices G df res,
          s.xMesh = (yAxisGrid df res).map (fun _ => xAxisGrid df res)
            ∧ s.yMesh = (yAxisGrid df res).map (fun yv =>
                (xAxisGrid df res).map (fun _ => yv)))
      ∧ (xAxisGrid df res).length = res
      ∧ (yAxisGrid df res).length = res
      ∧ (zAxisGrid df res).length = res / 2
      ∧ (xAxisGrid df res).getD 0 0 = colMinQ (df.map (fun r => r.xMean))
      ∧ (xAxisGrid df res).getD (res - 1) 0 = colMaxQ (df.map (fun r => r.xMean))
      ∧ (yAxisGrid df res).getD 0 0 = colMinQ (df.map (fun r => r.yMean))
      ∧ (yAxisGrid df res).getD (res - 1) 0 = colMaxQ (df.map (fun r => r.yMean))
      ∧ (zAxisGrid df res).getD 0 0 = colMinQ (df.map (fun r => r.zMean))
      ∧ (zAxisGrid df res).getD (res / 2 - 1) 0 = colMaxQ (df.map (fun r => r.zMean))
      ∧ (∀ i, i + 1 < res →
          (xAxisGrid df res).getD (i + 1) 0 - (xAxisGrid df res).getD i 0
            = (colMaxQ (df.map (fun r => r.xMean))
                - colMinQ (df.map (fun r => r.xMean))) / ((res : ℚ) - 1))
      ∧ (∀ i, i + 1 < res →
          (yAxisGrid df res).getD (i + 1) 0 - (yAxisGrid df res).getD i 0
            = (colMaxQ (df.map (fun r => r.yMean))
                - colMinQ (df.map (fun r => r.yMean))) / ((res : ℚ) - 1))
      ∧ (∀ s ∈ interpSlices G df res, ∀ j, j < res → ∀ i, i < res →
          G.insideHull (gridPoints df)
              ⟨(xAxisGrid df res).getD i 0, (yAxisGrid df res).getD j 0,
                s.zLevel⟩ = false →
            (s.values.getD j []).getD i 0 = 0) := by
  have h2 : 2 ≤ res := by omega
  have h2z : 2 ≤ res / 2 := by omega
  have hxlen : (xAxisGrid df res).length = res := linspace_length _ _ _
  have hylen : (yAxisGrid df res).length = res := linspace_length _ _ _
  refine ⟨?_, ?_, ?_, ?_, hxlen, hylen, linspace_length _ _ _,
    linspace_first _ _ _ h2, linspace_last _ _ _ h2,
    linspace_first _ _ _ h2, linspace_last _ _ _ h2,
    linspace_first _ _ _ h2z, linspace_last _ _ _ h2z,
    fun i hi => linspace_step _ _ _ i h2 hi,
    fun i hi => linspace_step _ _ _ i h2 hi, ?_⟩
  · have hdim' : fullDim3 (df.map (fun r => Point3.mk r.xMean r.yMean r.zMean)) = true := hdim
    simp only [interpolate_3d_grid, interpSlices, xAxisGrid, yAxisGrid,
      zAxisGrid, gridPoints, griddataApply]
    rw [if_pos hdim']
  · rw [interpSlices, List.length_map]
    exact linspace_length _ _ _
  · rw [interpSlices, List.map_map]
    exact List.map_id _
  · intro s hs
    rw [interpSlices, List.mem_map] at hs
    obtain ⟨z, -, rfl⟩ := hs
    exact ⟨rfl, rfl⟩
  · intro s hs j hj i hi hout
    rw [interpSlices, List.mem_map] at hs
    obtain ⟨z, -, rfl⟩ := hs
    have hj' : j < (yAxisGrid df res).length := by omega
    have hi' : i < (xAxisGrid df res).length := by omega
    rw [getD_lt _ _ _ hi', getD_lt _ _ _ hj'] at hout
    have hjm : j < ((yAxisGrid df res).map (fun yv =>
        (xAxisGrid df res).map (fun xv =>
          if G.insideHull (gridPoints df) ⟨xv, yv, z⟩ then
            G.interpolant (gridPoints df) (df.map (fun r => r.moyenneU))
              ⟨xv, yv, z⟩
          else 0))).length := by
      rw [List.length_map]; omega
    rw [getD_lt _ _ _ hjm, List.getElem_map]
    have him : i < ((xAxisGrid df res).map (fun xv =>
        if G.insideHull (gridPoints df) ⟨xv, (yAxisGrid df res)[j], z⟩ then
          G.interpolant (gridPoints df) (df.map (fun r => r.moyenneU))
            ⟨xv, (yAxisGrid df res)[j], z⟩
        else 0)).length := by
      rw [List.length_map]; omega
    rw [getD_lt _ _ _ him, List.getElem_map]
    simp [hout]

/-- If every sample point shares one z value, the point set is
coplanar: every difference simplex has determinant 0, so `fullDim3` is
false. -/
theorem fullDim3_eq_false_of_const_z (pts : List Point3) (c : ℚ)
    (h : ∀ p ∈ pts, p.z = c) : fullDim3 pts = false := by
  rw [fullDim3]
  simp only [List.any_eq_false, Bool.not_eq_true, decide_eq_true_eq, not_not]
  intro a ha b hb q hq d hd
  simp [det3, psub, h a ha, h b hb, h q hq, h d hd]

/-- A trivial concrete instance of the griddata oracle, for witnesses. -/
def trivialGriddata : GriddataLinear :=
  { interpolant := fun _ _ _ => 0, insideHull := fun _ _ => false }

/-- Four sample rows whose midpoints form a non-degenerate simplex. -/
def unitSimplexRows : List GridRow :=
  [⟨0, 0, 0, 10⟩, ⟨1, 0, 0, 20⟩, ⟨0, 1, 0, 30⟩, ⟨0, 0, 1, 40⟩]

theorem unitSimplexRows_fullDim :
    fullDim3 (gridPoints unitSimplexRows) = true := by
  norm_num [fullDim3, gridPoints, unitSimplexRows, det3, psub]

/-- Witness for C7 at a concrete non-degenerate table and resolution 4. -/
theorem C7_interpolation_grid_structure_witness :
    interpolate_3d_grid trivialGriddata unitSimplexRows 4
        = Except.ok (interpSlices trivialGriddata unitSimplexRows 4)
      ∧ (interpSlices trivialGriddata unitSimplexRows 4).length = 4 / 2 :=
  ⟨(C7_interpolation_grid_structure trivialGriddata unitSimplexRows 4
      (by norm_num) unitSimplexRows_fullDim).1,
   (C7_interpolation_grid_structure trivialGriddata unitSimplexRows 4
      (by norm_num) unitSimplexRows_fullDim).2.1⟩

/-- Five sample rows that all share the same depth midpoint: the point
set collapses onto a plane, the degenerate case of the claim. -/
def flatRows : List GridRow :=
  [⟨0, 0, 10, 40⟩, ⟨1, 0, 10, 50⟩, ⟨0, 1, 10, 60⟩, ⟨1, 1, 10, 70⟩,
   ⟨2, 3, 10, 80⟩]

/-- Counterexample to C5: on a table whose sample points collapse onto
a plane, `interpolate_3d_grid` does not fall back to fill values — it
fails, propagating the QhullError of the underlying Delaunay
triangulation (the source wraps the `griddata` call in no
try/except). -/
theorem C5_counterexample_degenerate_raises :
    interpolate_3d_grid trivialGriddata flatRows 50
      = Except.error QhullError.degenerateInput := by
  have hflat : fullDim3 (flatRows.map
      (fun r => Point3.mk r.xMean r.yMean r.zMean)) = false := by
    apply fullDim3_eq_false_of_const_z _ 10
    intro p hp
    fin_cases hp <;> rfl
  simp [interpolate_3d_grid, hflat]

/-- C5 amended: `interpolate_3d_grid` performs no exception handling:
whenever the sample points are affinely degenerate, the QhullError of
the underlying triangulation propagates out of the function and no
slice list is returned; fill values are used only for out-of-hull
lattice points of a non-degenerate interpolation. -/
theorem C5_degenerate_error_propagates (G : GriddataLinear)
    (df : List GridRow) (res : Nat)
    (h : fullDim3 (gridPoints df) = false) :
    interpolate_3d_grid G df res = Except.error QhullError.degenerateInput := by
  have h' : fullDim3 (df.map (fun r => Point3.mk r.xMean r.yMean r.zMean)) = false := h
  simp [interpolate_3d_grid, h']

/-- Witness for the amended C5 at a concrete degenerate table. -/
theorem C5_degenerate_error_propagates_witness :
    interpolate_3d_grid trivialGriddata flatRows 20
      = Except.error QhullError.degenerateInput :=
  C5_degenerate_error_propagates trivialGriddata flatRows 20
    (by
      apply fullDim3_eq_false_of_const_z _ 10
      intro p hp
      simp only [gridPoints, flatRows] at hp
      fin_cases hp <;> rfl)

/-! ## Preprocessor: load_and_preprocess_data (data_processor.py lines 20-68) -/

/-- One raw row as `load_and_preprocess_data` receives it after the
`pd.to_numeric(errors='coerce')` pass: a numeric cell that was missing
or unparsable is `none` (NaN), every other cell carries its rational
value. `lithologie` is `none` when the cell is missing. -/
structure RawRow where
  debutE : Option ℚ
  debutN : Option ℚ
  finE : Option ℚ
  finN : Option ℚ
  direction : Option ℚ
  longueur : Option ℚ
  deM : Option ℚ
  aM : Option ℚ
  epaisseur : Option ℚ
  moyenneU : Option ℚ
  maxU : Option ℚ
  lithologie : Option String
deriving DecidableEq, Repr

/-- One row of the ProcessedTable built by `load_and_preprocess_data`.
The five critical columns are plain values (rows missing one were
dropped); every other numeric column stays optional because NaN
propagates through pandas arithmetic. -/
structure ProcessedRow where
  debutE : ℚ
  debutN : ℚ
  finE : ℚ
  finN : ℚ
  direction : Option ℚ
  longueur : Option ℚ
  deM : Option ℚ
  aM : Option ℚ
  epaisseur : Option ℚ
  moyenneU : ℚ
  maxU : Option ℚ
  lithologie : String
  lithologieEncoded : Nat
  xMean : ℚ
  yMean : ℚ
  zMean : Option ℚ
  volumeApprox : Option ℚ
  gradientU : Option ℚ
deriving DecidableEq, Repr

/-- The ValueError raised when no valid rows survive the critical-field
dropping. -/
inductive DataError where
  | noValidData : DataError
deriving DecidableEq, Repr

/-- NaN-propagating binary arithmetic on pandas cells. -/
def omap2 (f : ℚ → ℚ → ℚ) : Option ℚ → Option ℚ → Option ℚ
  | some a, some b => some (f a b)
  | _, _ => none

/-- pandas `fillna`: keep the present value, otherwise use the fill
value (itself possibly NaN). -/
def fillna (fill v : Option ℚ) : Option ℚ :=
  match v with
  | some x => some x
  | none => fill

/-- pandas column `mean()`: the mean over present values, NaN when no
value is present. -/
def colMeanPresent (l : List (Option ℚ)) : Option ℚ :=
  let present := l.filterMap id
  if present.length = 0 then none
  else some (present.sum / present.length)

/-- Insert a string into a sorted list, keeping it sorted. -/
def insortStr (x : String) : List String → List String
  | [] => [x]
  | y :: tl => if x ≤ y then x :: y :: tl else y :: insortStr x tl

/-- Ascending insertion sort on strings. -/
def sortStrings (l : List String) : List String := l.foldr insortStr []

/-- `LabelEncoder.fit`: the classes are the distinct labels in
ascending order (numpy `np.unique`), independent of any previously
fitted state. -/
def encoderClasses (labels : List String) : List String :=
  (sortStrings labels).dedup

/-- Whether a raw row has all five critical fields present
(`Début_EUTM`, `Début_NUTM`, `Fin_EUTM`, `Fin_NUTM`,
`Moyenne U (ppm)`). -/
def criticalPresent (r : RawRow) : Bool :=
  r.debutE.isSome && r.debutN.isSome && r.finE.isSome && r.finN.isSome
    && r.moyenneU.isSome

/-- Embedding of `MiningDataProcessor.load_and_preprocess_data` (the
`sample_data` path; the CSV path differs only in the excluded reader).
The processor's `label_encoder` is hidden cross-call state, modelled as
the explicit `encoderState` argument threaded in and the fitted classes
threaded out; `fit_transform` refits from the data alone, which is why
the incoming state never influences the result. Steps, as in the
source: drop rows missing a critical field; raise the ValueError when
none remain; compute segment midpoints; fill missing lithology with
the sentinel and fit/encode it; fill missing length and thickness with
the column mean over present values; derive the volume proxy and the
grade gradient. -/
def load_and_preprocess_data (_encoderState : List String)
    (raw : List RawRow) :
    Except DataError (List String × List ProcessedRow) :=
  let kept := raw.filter criticalPresent
  if kept.length = 0 then Except.error DataError.noValidData
  else
    let classes := encoderClasses (kept.map (fun r => r.lithologie.getD "Inconnu"))
    let longMean := colMeanPresent (kept.map (fun r => r.longueur))
    let epMean := colMeanPresent (kept.map (fun r => r.epaisseur))
    Except.ok (classes, kept.map (fun r =>
      let lith := r.lithologie.getD "Inconnu"
      let longF := fillna longMean r.longueur
      let epF := fillna epMean r.epaisseur
      { debutE := r.debutE.getD 0,
        debutN := r.debutN.getD 0,
        finE := r.finE.getD 0,
        finN := r.finN.getD 0,
        direction := r.direction,
        longueur := longF,
        deM := r.deM,
        aM := r.aM,
        epaisseur := epF,
        moyenneU := r.moyenneU.getD 0,
        maxU := r.maxU,
        lithologie := lith,
        lithologieEncoded := classes.indexOf lith,
        xMean := (r.debutE.getD 0 + r.finE.getD 0) / 2,
        yMean := (r.debutN.getD 0 + r.finN.getD 0) / 2,
        zMean := omap2 (fun a b => (a + b) / 2) r.deM r.aM,
        volumeApprox := omap2 (fun a b => a * b * 1) longF epF,
        gradientU := omap2 (fun a b => a - b) r.maxU r.moyenneU }))

/-- The encoder state held by the processor after one call of
`load_and_preprocess_data` (unchanged when the call raised). -/
def afterState (s : List String) (raw : List RawRow) : List String :=
  match load_and_preprocess_data s raw with
  | Except.ok (s', _) => s'
  | Except.error _ => s

/-- C9: preprocessing is idempotent as a two-run property. The result
of `load_and_preprocess_data` does not depend on the incoming fitted
encoder state (the encoder is refitted from the data each call), so a
second call on the same raw input — made with whatever state the first
call left behind — returns the identical ProcessedTable, with
identical lithology indices and identical length/thickness fill
values, since those are fields of the returned rows. -/
theorem C9_preprocess_idempotent (s₀ s₁ : List String)
    (raw : List RawRow) :
    load_and_preprocess_data s₁ raw = load_and_preprocess_data s₀ raw
      ∧ load_and_preprocess_data (afterState s₀ raw) raw
          = load_and_preprocess_data s₀ raw :=
  ⟨rfl, rfl⟩

/-! ## Spatial clusterer: spatial_clustering (data_processor.py lines 111-119) -/

/-- One row of the table as read by `spatial_clustering`: the three
midpoint coordinate columns. -/
structure ClusterRow where
  xMean : ℚ
  yMean : ℚ
  zMean : ℚ
deriving DecidableEq, Repr

/-- Mean of a column (population mean, as `StandardScaler` uses). -/
def colMean (l : List ℚ) : ℚ := l.sum / l.length

/-- Population variance of a column, ddof = 0 as in `StandardScaler`. -/
def colVar (l : List ℚ) : ℚ :=
  (l.map (fun x => (x - colMean l) ^ 2)).sum / l.length

/-- Squared scale used by `StandardScaler`: the variance, except that a
zero variance is replaced by 1 (sklearn `_handle_zeros_in_scale`). -/
def varAdj (l : List ℚ) : ℚ := if colVar l = 0 then 1 else colVar l

/-- Squared Euclidean distance between two rows after per-axis
standardization, in exact rational arithmetic: the per-axis mean
cancels in the difference, leaving `(Δaxis)² / scale²` with
`scale² = varAdj`. -/
def sqScaledDist (df : List ClusterRow) (a b : ClusterRow) : ℚ :=
  (a.xMean - b.xMean) ^ 2 / varAdj (df.map (fun r => r.xMean))
    + (a.yMean - b.yMean) ^ 2 / varAdj (df.map (fun r => r.yMean))
    + (a.zMean - b.zMean) ^ 2 / varAdj (df.map (fun r => r.zMean))

/-- DBSCAN neighborhood test at radius `eps'` on the standardized
coordinates (sklearn uses distance ≤ eps, here squared on both
sides). -/
def neighborB (df : List ClusterRow) (eps' : ℚ)
    (i j : Fin df.length) : Bool :=
  decide (sqScaledDist df (df.get i) (df.get j) ≤ eps' ^ 2)

/-- DBSCAN core-point test: at least `minPts` rows (the row itself
included) in the eps-neighborhood. -/
def coreB (df : List ClusterRow) (eps' : ℚ) (minPts : Nat)
    (i : Fin df.length) : Bool :=
  decide (minPts ≤ (Finset.univ.filter
    (fun j => neighborB df eps' i j = true)).card)

/-- One expansion step of DBSCAN reachability: add every point that
neighbors a core point of the current set. -/
def reachStep (df : List ClusterRow) (eps' : ℚ) (minPts : Nat)
    (S : Finset (Fin df.length)) : Finset (Fin df.length) :=
  S ∪ Finset.univ.filter (fun j => ∃ k ∈ S,
    coreB df eps' minPts k = true ∧ neighborB df eps' k j = true)

/-- The set of points density-reachable from the seed `c`, computed by
saturating `reachStep`; `df.length` steps always reach the fixpoint. -/
def reachSet (df : List ClusterRow) (eps' : ℚ) (minPts : Nat)
    (c : Fin df.length) : Finset (Fin df.length) :=
  (reachStep df eps' minPts)^[df.length] {c}

/-- Whether some core point reaches the point `i`. -/
def assignedB (df : List ClusterRow) (eps' : ℚ) (minPts : Nat)
    (i : Fin df.length) : Bool :=
  decide (∃ c : Fin df.length, coreB df eps' minPts c = true
    ∧ i ∈ reachSet df eps' minPts c)

/-- Cluster id of an assigned point: the smallest core index reaching
it. sklearn numbers clusters by scan order instead; the numbering is
non-canonical (one cluster keeps one id), only the noise label -1 is
fixed. -/
def clusterId (df : List ClusterRow) (eps' : ℚ) (minPts : Nat)
    (i : Fin df.length) : Int :=
  match (Finset.univ.filter (fun c => coreB df eps' minPts c = true
      ∧ i ∈ reachSet df eps' minPts c)).min with
  | some c => (c.val : Int)
  | none => -1

/-- The label `DBSCAN(eps, min_samples).fit_predict` gives row `i`:
-1 for a point no core point reaches, its cluster id otherwise. -/
def dbscanLabel (df : List ClusterRow) (eps' : ℚ) (minPts : Nat)
    (i : Fin df.length) : Int :=
  if assignedB df eps' minPts i then clusterId df eps' minPts i else -1

/-- Embedding of `MiningDataProcessor.spatial_clustering`: standardizes
the midpoint coordinates with a freshly fitted scaler, runs
`DBSCAN(eps=eps/1000, min_samples=min_samples)` on the scaled
coordinates and attaches the label column to the table. `min_samples`
defaults to 3 as in the source. -/
def spatial_clustering (df : List ClusterRow) (eps : ℚ)
    (minSamples : Nat := 3) : List (ClusterRow × Int) :=
  (List.finRange df.length).map
    (fun i => (df.get i, dbscanLabel df (eps / 1000) minSamples i))

/-- Density reachability as DBSCAN defines it: a chain from the seed
in which every link starts at a core point and each step moves to a
neighbor of it. -/
inductive DensityReachable (df : List ClusterRow) (eps' : ℚ)
    (minPts : Nat) (c : Fin df.length) : Fin df.length → Prop where
  | refl : DensityReachable df eps' minPts c c
  | step (j k : Fin df.length) : DensityReachable df eps' minPts c j →
      coreB df eps' minPts j = true → neighborB df eps' j k = true →
      DensityReachable df eps' minPts c k

theorem subset_reachStep (df : List ClusterRow) (eps' : ℚ) (minPts : Nat)
    (S : Finset (Fin df.length)) : S ⊆ reachStep df eps' minPts S :=
  Finset.subset_union_left

theorem subset_iterate_reachStep (df : List ClusterRow) (eps' : ℚ)
    (minPts : Nat) (S : Finset (Fin df.length)) :
    ∀ m, S ⊆ (reachStep df eps' minPts)^[m] S := by
  intro m
  induction m with
  | zero => exact fun x h => h
  | succ m ih =>
    rw [Function.iterate_succ_apply']
    exact ih.trans (subset_reachStep df eps' minPts _)

theorem reachStep_fixed_iterate (df : List ClusterRow) (eps' : ℚ)
    (minPts : Nat) (S : Finset (Fin df.length))
    (h : reachStep df eps' minPts S = S) :
    ∀ m, (reachStep df eps' minPts)^[m] S = S := by
  intro m
  induction m with
  | zero => rfl
  | succ m ih => rw [Function.iterate_succ_apply', ih, h]

theorem card_lt_of_reachStep_ne (df : List ClusterRow) (eps' : ℚ)
    (minPts : Nat) (S : Finset (Fin df.length))
    (h : reachStep df eps' minPts S ≠ S) :
    S.card < (reachStep df eps' minPts S).card := by
  apply Finset.card_lt_card
  rw [Finset.ssubset_iff_subset_ne]
  exact ⟨subset_reachStep df eps' minPts S, fun hx => h hx.symm⟩

theorem card_iterate_reachStep_ge (df : List ClusterRow) (eps' : ℚ)
    (minPts : Nat) (c : Fin df.length) :
    ∀ k, (∀ m, m < k →
        reachStep df eps' minPts ((reachStep df eps' minPts)^[m] {c})
          ≠ (reachStep df eps' minPts)^[m] {c}) →
      k + 1 ≤ ((reachStep df eps' minPts)^[k] {c}).card := by
  intro k
  induction k with
  | zero => intro _; simp
  | succ k ih =>
    intro h
    have hk := ih (fun m hm => h m (by omega))
    have hne := h k (by omega)
    have hlt := card_lt_of_reachStep_ne df eps' minPts _ hne
    rw [Function.iterate_succ_apply']
    omega

theorem reachStep_reachSet_fixed (df : List ClusterRow) (eps' : ℚ)
    (minPts : Nat) (c : Fin df.length) :
    reachStep df eps' minPts (reachSet df eps' minPts c)
      = reachSet df eps' minPts c := by
  by_contra hne
  have hall : ∀ m, m < df.length + 1 →
      reachStep df eps' minPts ((reachStep df eps' minPts)^[m] {c})
        ≠ (reachStep df eps' minPts)^[m] {c} := by
    intro m hm hfix
    have hmn : m ≤ df.length := by omega
    have hset : reachSet df eps' minPts c = (reachStep df eps' minPts)^[m] {c} := by
      have hiter : (reachStep df eps' minPts)^[df.length] {c}
          = (reachStep df eps' minPts)^[df.length - m]
              ((reachStep df eps' minPts)^[m] {c}) := by
        rw [← Function.iterate_add_apply]
        congr 1
        omega
      rw [reachSet, hiter]
      exact reachStep_fixed_iterate df eps' minPts _ hfix (df.length - m)
    exact hne (by rw [hset, hfix])
  have hge := card_iterate_reachStep_ge df eps' minPts c (df.length + 1) hall
  have hle : ((reachStep df eps' minPts)^[df.length + 1] {c}).card
      ≤ df.length := by
    have h := Finset.card_le_univ ((reachStep df eps' minPts)^[df.length + 1] {c})
    simpa [Finset.card_univ] using h
  omega

theorem reachable_of_mem_iterate (df : List ClusterRow) (eps' : ℚ)
    (minPts : Nat) (c : Fin df.length) :
    ∀ m i, i ∈ (reachStep df eps' minPts)^[m] {c} →
      DensityReachable df eps' minPts c i := by
  intro m
  induction m with
  | zero =>
    intro i hi
    rw [Function.iterate_zero_apply, Finset.mem_singleton] at hi
    subst hi
    exact DensityReachable.refl
  | succ m ih =>
    intro i hi
    rw [Function.iterate_succ_apply', reachStep] at hi
    rcases Finset.mem_union.mp hi with h | h
    · exact ih i h
    · obtain ⟨-, k, hkS, hcore, hnb⟩ := Finset.mem_filter.mp h
      exact DensityReachable.step k i (ih k hkS) hcore hnb

theorem mem_reachSet_of_reachable (df : List ClusterRow) (eps' : ℚ)
    (minPts : Nat) (c i : Fin df.length)
    (h : DensityReachable df eps' minPts c i) :
    i ∈ reachSet df eps' minPts c := by
  induction h with
  | refl =>
    exact subset_iterate_reachStep df eps' minPts {c} df.length
      (Finset.mem_singleton_self c)
  | step j k hcj hcore hnb ih =>
    rw [← reachStep_reachSet_fixed df eps' minPts c, reachStep]
    apply Finset.mem_union_right
    rw [Finset.mem_filter]
    exact ⟨Finset.mem_univ k, j, ih, hcore, hnb⟩

theorem assignedB_iff (df : List ClusterRow) (eps' : ℚ) (minPts : Nat)
    (i : Fin df.length) :
    assignedB df eps' minPts i = true
      ↔ ∃ c, coreB df eps' minPts c = true
          ∧ DensityReachable df eps' minPts c i := by
  rw [assignedB, decide_eq_true_eq]
  constructor
  · rintro ⟨c, hc, hm⟩
    exact ⟨c, hc, reachable_of_mem_iterate df eps' minPts c df.length i hm⟩
  · rintro ⟨c, hc, hr⟩
    exact ⟨c, hc, mem_reachSet_of_reachable df eps' minPts c i hr⟩

theorem dbscanLabel_eq_neg_one_iff (df : List ClusterRow) (eps' : ℚ)
    (minPts : Nat) (i : Fin df.length) :
    dbscanLabel df eps' minPts i = -1
      ↔ ¬∃ c, coreB df eps' minPts c = true
          ∧ DensityReachable df eps' minPts c i := by
  rw [dbscanLabel]
  by_cases h : assignedB df eps' minPts i = true
  · obtain ⟨c, hc, hm⟩ := (by rwa [assignedB, decide_eq_true_eq] at h :
      ∃ c, coreB df eps' minPts c = true ∧ i ∈ reachSet df eps' minPts c)
    have hex : ∃ c, coreB df eps' minPts c = true
        ∧ DensityReachable df eps' minPts c i :=
      (assignedB_iff df eps' minPts i).mp h
    have hmem : c ∈ Finset.univ.filter (fun c => coreB df eps' minPts c = true
        ∧ i ∈ reachSet df eps' minPts c) :=
      Finset.mem_filter.mpr ⟨Finset.mem_univ c, hc, hm⟩
    obtain ⟨b, hb⟩ := Finset.min_of_mem hmem
    rw [if_pos h]
    constructor
    · intro heq
      have hcid : clusterId df eps' minPts i = (b.val : Int) := by
        rw [clusterId, hb]
      rw [hcid] at heq
      omega
    · intro hn
      exact absurd hex hn
  · rw [if_neg h]
    have hnone : ¬∃ c, coreB df eps' minPts c = true
        ∧ DensityReachable df eps' minPts c i :=
      fun hex => h ((assignedB_iff df eps' minPts i).mpr hex)
    simp [hnone]

theorem list_sum_map_cast (l : List ℚ) (f : ℚ → ℚ) :
    (l.map (fun x => ((f x : ℚ) : ℝ))).sum = (((l.map f).sum : ℚ) : ℝ) := by
  induction l with
  | nil => simp
  | cons a tl ih => simp [ih]

theorem list_sum_map_div (l : List ℚ) (f : ℚ → ℝ) (s : ℝ) :
    (l.map (fun x => f x / s)).sum = (l.map f).sum / s := by
  induction l with
  | nil => simp
  | cons a tl ih => simp [ih, add_div]

theorem list_sum_map_sub_const (l : List ℚ) (m : ℝ) :
    (l.map (fun (x : ℚ) => (x : ℝ) - m)).sum
      = (l.map (fun (x : ℚ) => (x : ℝ))).sum - l.length * m := by
  induction l with
  | nil => simp
  | cons a tl ih =>
    simp only [List.map_cons, List.sum_cons, List.length_cons, ih]
    push_cast
    ring

/-- The standardized values `StandardScaler.fit_transform` produces for
one coordinate column: subtract the column mean, divide by the scale
(the square root of the variance, 1 when the variance is 0). -/
noncomputable def scaledAxis (l : List ℚ) : List ℝ :=
  l.map (fun (x : ℚ) => ((x : ℝ) - (colMean l : ℝ)) / Real.sqrt ((varAdj l : ℝ)))

theorem colVar_nonneg (l : List ℚ) : 0 ≤ colVar l := by
  rw [colVar]
  apply div_nonneg
  · apply List.sum_nonneg
    intro x hx
    obtain ⟨y, -, rfl⟩ := List.mem_map.mp hx
    positivity
  · exact Nat.cast_nonneg _

theorem varAdj_pos (l : List ℚ) : 0 < varAdj l := by
  rw [varAdj]
  split
  · norm_num
  · rename_i h
    exact lt_of_le_of_ne (colVar_nonneg l) (Ne.symm h)

theorem scaledAxis_sum_eq_zero (l : List ℚ) (h : l ≠ []) :
    (scaledAxis l).sum = 0 := by
  rw [scaledAxis, list_sum_map_div, list_sum_map_sub_const]
  have hn : (l.length : ℝ) ≠ 0 := by
    have : l.length ≠ 0 := by simpa [List.length_eq_zero] using h
    exact_mod_cast this
  have hsum : (l.map (fun (x : ℚ) => (x : ℝ))).sum = ((l.sum : ℚ) : ℝ) := by
    have h := list_sum_map_cast l (fun x => x)
    rwa [show l.map (fun x => x) = l from List.map_id l] at h
  have hz : (l.map (fun (x : ℚ) => (x : ℝ))).sum - (l.length : ℝ) * ((colMean l : ℝ)) = 0 := by
    rw [hsum, colMean]
    push_cast
    field_simp
  rw [hz, zero_div]

theorem scaledAxis_sq_sum_eq_one (l : List ℚ) (h : l ≠ [])
    (hv : colVar l ≠ 0) :
    ((scaledAxis l).map (fun y => y ^ 2)).sum / (l.length : ℝ) = 1 := by
  have hvaR : (0 : ℝ) ≤ ((varAdj l : ℝ)) := by
    exact_mod_cast le_of_lt (varAdj_pos l)
  rw [scaledAxis, List.map_map]
  have hcomp : ((fun y : ℝ => y ^ 2)
        ∘ (fun x : ℚ => ((x : ℝ) - (colMean l : ℝ)) / Real.sqrt ((varAdj l : ℝ))))
      = fun x : ℚ => ((x : ℝ) - (colMean l : ℝ)) ^ 2 / ((varAdj l : ℝ)) := by
    funext x
    simp [Function.comp, div_pow, Real.sq_sqrt hvaR]
  rw [hcomp, list_sum_map_div]
  have hsq : (l.map (fun x : ℚ => ((x : ℝ) - (colMean l : ℝ)) ^ 2)).sum
      = (((l.map (fun x => (x - colMean l) ^ 2)).sum : ℚ) : ℝ) := by
    rw [← list_sum_map_cast l (fun x => (x - colMean l) ^ 2)]
    congr 1
    apply List.map_congr_left
    intro x hx
    push_cast
    ring
  rw [hsq]
  have hva : ((varAdj l : ℝ)) = ((colVar l : ℝ)) := by
    rw [varAdj, if_neg hv]
  rw [hva]
  have hcv : ((colVar l : ℝ))
      = (((l.map (fun x => (x - colMean l) ^ 2)).sum : ℚ) : ℝ) / (l.length : ℝ) := by
    rw [colVar]
    push_cast
    ring
  rw [hcv]
  have hn : (l.length : ℝ) ≠ 0 := by
    have : l.length ≠ 0 := by simpa [List.length_eq_zero] using h
    exact_mod_cast this
  have hS2 : (((l.map (fun x => (x - colMean l) ^ 2)).sum : ℚ) : ℝ) ≠ 0 := by
    intro h0
    apply hv
    rw [colVar]
    have hq : (l.map (fun x => (x - colMean l) ^ 2)).sum = 0 := by
      exact_mod_cast h0
    rw [hq, zero_div]
  field_simp
  rw [div_self]
  apply mul_ne_zero _ hn
  have hc : ((l.map (Rat.cast ∘ fun x => (x - colMean l) ^ 2) : List ℝ)).sum
      = (((l.map (fun x => (x - colMean l) ^ 2)).sum : ℚ) : ℝ) :=
    list_sum_map_cast l _
  rw [hc]
  exact hS2

/-- The standardized value of one coordinate of one row, relative to
the table the scaler was fitted on. -/
noncomputable def scaledCoord (df : List ClusterRow) (f : ClusterRow → ℚ)
    (r : ClusterRow) : ℝ :=
  ((f r : ℝ) - (colMean (df.map f) : ℝ)) / Real.sqrt ((varAdj (df.map f) : ℝ))

/-- Euclidean distance between two rows in standardized coordinates:
the distance DBSCAN measures against its eps. -/
noncomputable def scaledDistR (df : List ClusterRow) (a b : ClusterRow) : ℝ :=
  Real.sqrt
    ((scaledCoord df (fun r => r.xMean) a - scaledCoord df (fun r => r.xMean) b) ^ 2
      + (scaledCoord df (fun r => r.yMean) a - scaledCoord df (fun r => r.yMean) b) ^ 2
      + (scaledCoord df (fun r => r.zMean) a - scaledCoord df (fun r => r.zMean) b) ^ 2)

theorem scaledCoord_sub_sq (df : List ClusterRow) (f : ClusterRow → ℚ)
    (a b : ClusterRow) :
    (scaledCoord df f a - scaledCoord df f b) ^ 2
      = ((((f a - f b) ^ 2 / varAdj (df.map f) : ℚ)) : ℝ) := by
  have hva : (0 : ℝ) ≤ ((varAdj (df.map f) : ℝ)) := by
    exact_mod_cast le_of_lt (varAdj_pos (df.map f))
  rw [scaledCoord, scaledCoord, div_sub_div_same, div_pow,
    Real.sq_sqrt hva]
  push_cast
  ring

theorem scaledDistR_le_iff (df : List ClusterRow) (i j : Fin df.length)
    (eps' : ℚ) (he : 0 ≤ eps') :
    scaledDistR df (df.get i) (df.get j) ≤ (eps' : ℝ)
      ↔ neighborB df eps' i j = true := by
  rw [neighborB, decide_eq_true_eq, scaledDistR,
    Real.sqrt_le_left (by exact_mod_cast he)]
  rw [scaledCoord_sub_sq, scaledCoord_sub_sq, scaledCoord_sub_sq]
  have hL : ((((df.get i).xMean - (df.get j).xMean) ^ 2
          / varAdj (df.map (fun r => r.xMean)) : ℚ) : ℝ)
        + ((((df.get i).yMean - (df.get j).yMean) ^ 2
          / varAdj (df.map (fun r => r.yMean)) : ℚ) : ℝ)
        + ((((df.get i).zMean - (df.get j).zMean) ^ 2
          / varAdj (df.map (fun r => r.zMean)) : ℚ) : ℝ)
      = ((sqScaledDist df (df.get i) (df.get j) : ℚ) : ℝ) := by
    rw [sqScaledDist]
    push_cast
    ring
  rw [hL, show ((eps' : ℝ)) ^ 2 = ((eps' ^ 2 : ℚ) : ℝ) by push_cast; ring]
  exact Rat.cast_le

/-- C6: `spatial_clustering` attaches to each row the label of a
density-based clustering run with radius exactly `epsMeters / 1000` and
`min_samples` defaulting to 3 on the standardized midpoint coordinates;
the standardization gives every axis zero mean, and unit variance
whenever the raw variance is nonzero; the neighborhood relation used by
the clustering is exactly standardized Euclidean distance ≤ eps/1000;
and a point gets label -1 exactly when it is density-reachable from no
core point. -/
theorem C6_spatial_clustering_spec (df : List ClusterRow) (eps : ℚ)
    (h0 : 0 < df.length) (he : 0 ≤ eps) :
    ((spatial_clustering df eps).map Prod.snd
        = (List.finRange df.length).map (fun i => dbscanLabel df (eps / 1000) 3 i))
      ∧ (∀ l ∈ [df.map (fun r => r.xMean), df.map (fun r => r.yMean),
            df.map (fun r => r.zMean)],
          (scaledAxis l).sum = 0
            ∧ (colVar l ≠ 0 →
                ((scaledAxis l).map (fun y => y ^ 2)).sum / (l.length : ℝ) = 1))
      ∧ (∀ i j : Fin df.length,
          scaledDistR df (df.get i) (df.get j) ≤ ((eps / 1000 : ℚ) : ℝ)
            ↔ neighborB df (eps / 1000) i j = true)
      ∧ (∀ i : Fin df.length,
          dbscanLabel df (eps / 1000) 3 i = -1
            ↔ ¬∃ c, coreB df (eps / 1000) 3 c = true
                ∧ DensityReachable df (eps / 1000) 3 c i) := by
  refine ⟨?_, ?_, ?_, ?_⟩
  · rw [spatial_clustering, List.map_map]
    rfl
  · intro l hl
    have hlen : l ≠ [] := by
      have hll : l.length = df.length := by
        simp only [List.mem_cons, List.not_mem_nil, or_false] at hl
        rcases hl with rfl | rfl | rfl <;> rw [List.length_map]
      intro hnil
      rw [hnil] at hll
      simp at hll
      omega
    exact ⟨scaledAxis_sum_eq_zero l hlen,
      fun hv => scaledAxis_sq_sum_eq_one l hlen hv⟩
  · intro i j
    exact scaledDistR_le_iff df i j (eps / 1000) (by positivity)
  · intro i
    exact dbscanLabel_eq_neg_one_iff df (eps / 1000) 3 i

/-- A concrete 5-row table of midpoints for the clustering witness. -/
def demoClusterRows : List ClusterRow :=
  [⟨0, 0, 0⟩, ⟨1, 1, 1⟩, ⟨2, 0, 2⟩, ⟨0, 2, 1⟩, ⟨1000, 1000, 1000⟩]

/-- Witness for C6 at a concrete table with eps = 100 meters. -/
theorem C6_spatial_clustering_spec_witness :
    (spatial_clustering demoClusterRows 100).map Prod.snd
      = (List.finRange demoClusterRows.length).map
          (fun i => dbscanLabel demoClusterRows (100 / 1000) 3 i) :=
  (C6_spatial_clustering_spec demoClusterRows 100 (by decide) (by decide)).1
